import Mathlib

/-!
Verification of the core of the `amazon-tax-library-downloader` content
script against its natural-language specification.  The authoritative source
is the optimized content script embedded in `src/IMPLEMENTATION_GUIDE.md`
(classes `InvoiceDataManager`, `DirectDownloadManager`, `InvoiceDownloader`);
`src/content.js` holds the earlier variant of the same row extractors.

The embedding is shallow:
* JavaScript `Map` objects become association lists in insertion order
  (`Map.set` keeps an existing key in place and appends a new key at the
  end; `map.keys().next().value` is the head);
* JavaScript `Set` objects become duplicate-free lists in insertion order;
* string truthiness (`if (s)`) becomes a nonemptiness test;
* DOM cells become the list of their text contents, and a button element
  becomes its attribute list (`getAttribute` returning `null` for an absent
  attribute is `Option.none`);
* the throwing of a JavaScript exception is an `Except.error` value.
-/

/-! ## Generic map/set helpers mirroring JS `Map`/`Set` semantics -/

/-- Lookup in an association list: the value at the first matching key,
`none` when absent.  Mirrors `Map.prototype.get` (DOM maps never hold
duplicate keys, and our updates preserve that). -/
def lookupFirst {α β : Type} [DecidableEq α] : List (α × β) → α → Option β
  | [], _ => none
  | (k, v) :: rest, key => if k = key then some v else lookupFirst rest key

/-- `Map.prototype.set`: replace the value in place when the key exists,
append a fresh entry at the end otherwise. -/
def updateMap {α β : Type} [DecidableEq α] : List (α × β) → α → β → List (α × β)
  | [], key, v => [(key, v)]
  | (k, w) :: rest, key, v =>
    if k = key then (key, v) :: rest else (k, w) :: updateMap rest key v

/-- `Set.prototype.add`: append when absent, keep the set unchanged when
already present. -/
def setAdd (s : List String) (x : String) : List String :=
  if x ∈ s then s else s ++ [x]

/-! ## Row Parser (`InvoiceDataManager.extractInvoiceId` / `extractDate` /
`extractMarketplace` / `extractButtonData`) -/

/-- ASCII uppercase, the regex class `[A-Z]`. -/
def isAsciiUpper (c : Char) : Bool := 'A' ≤ c && c ≤ 'Z'

/-- ASCII lowercase, the regex class `[a-z]`. -/
def isAsciiLower (c : Char) : Bool := 'a' ≤ c && c ≤ 'z'

/-- The regex class `\w` = `[A-Za-z0-9_]`. -/
def isWordChar (c : Char) : Bool :=
  isAsciiUpper c || isAsciiLower c || c.isDigit || c = '_'

/-- The regex class `\s`, restricted to the ASCII whitespace that can occur
in the page's trimmed cell text. -/
def isJsSpace (c : Char) : Bool :=
  c = ' ' || c = '\t' || c = '\n' || c = '\r'

/-- Consume one or more characters satisfying `p` (a regex `+`), returning
the rest of the input, or `none` when the first character does not match. -/
def dropWhilePlus (p : Char → Bool) : List Char → Option (List Char)
  | [] => none
  | c :: rest => if p c then some (rest.dropWhile p) else none

/-- The anchored regex `/^[A-Z]{2}-[A-Z]+-\d+-\d+$/` used by
`extractInvoiceId`. -/
def invoiceIdMatch (s : String) : Bool :=
  match s.data with
  | a :: b :: '-' :: rest =>
    isAsciiUpper a && isAsciiUpper b &&
    (match dropWhilePlus isAsciiUpper rest with
     | some ('-' :: rest2) =>
       (match dropWhilePlus Char.isDigit rest2 with
        | some ('-' :: rest3) =>
          (match dropWhilePlus Char.isDigit rest3 with
           | some [] => true
           | _ => false)
        | _ => false)
     | _ => false)
  | _ => false

/-- The date guard `/^\w{3}\s\w{3}\s\d{2}/` of `extractDate` (anchored at
the start only). -/
def matchDatePattern (s : String) : Bool :=
  match s.data with
  | a :: b :: c :: s1 :: d :: e :: f :: s2 :: g :: h :: _ =>
    isWordChar a && isWordChar b && isWordChar c && isJsSpace s1 &&
    isWordChar d && isWordChar e && isWordChar f && isJsSpace s2 &&
    g.isDigit && h.isDigit
  | _ => false

/-- JavaScript `String.prototype.trim` (ASCII whitespace), written over the
character list so that it reduces inside the kernel. -/
def jsTrim (s : String) : String :=
  String.mk (((s.data.dropWhile isJsSpace).reverse.dropWhile isJsSpace).reverse)

/-- ASCII lowercasing of one character, the effect of
`String.prototype.toLowerCase` on this page's text. -/
def asciiToLower (c : Char) : Char :=
  if isAsciiUpper c then Char.ofNat (c.toNat + 32) else c

/-- JavaScript `String.prototype.toLowerCase`, on the ASCII text this page
produces. -/
def jsToLower (s : String) : String := String.mk (s.data.map asciiToLower)

/-- JavaScript `hay.startsWith(pre)`. -/
def jsStartsWith (hay pre : String) : Bool := pre.data.isPrefixOf hay.data

/-- JavaScript `s.slice(n)` / Lean `String.drop`, over the character
list. -/
def jsDrop (s : String) (n : Nat) : String := String.mk (s.data.drop n)

/-- Split on single spaces, keeping empty pieces (the tokenization
`text.split(' ')` of the date model below). -/
def splitSpaceAux : List Char → List Char → List String
  | [], acc => [String.mk acc.reverse]
  | c :: rest, acc =>
    if c = ' ' then String.mk acc.reverse :: splitSpaceAux rest []
    else splitSpaceAux rest (c :: acc)

/-- Split a string on single spaces. -/
def splitSpace (s : String) : List String := splitSpaceAux s.data []

/-- Decimal digits to a number, `none` on a non-digit. -/
def digitsToNat : List Char → Nat → Option Nat
  | [], acc => some acc
  | c :: rest, acc =>
    if c.isDigit then digitsToNat rest (acc * 10 + (c.toNat - 48)) else none

/-- A nonempty all-digit string as a number, `none` otherwise. -/
def parseNatDigits (s : String) : Option Nat :=
  if s.data.isEmpty then none else digitsToNat s.data 0

/-- Zero-pad a month or day number to two digits. -/
def pad2 (n : Nat) : String :=
  if n < 10 then "0" ++ toString n else toString n

/-- Zero-pad a year to four digits (the `YYYY` of `toISOString`). -/
def pad4 (n : Nat) : String :=
  if n < 10 then "000" ++ toString n
  else if n < 100 then "00" ++ toString n
  else if n < 1000 then "0" ++ toString n
  else toString n

/-- Gregorian leap-year test. -/
def isLeapYear (y : Nat) : Bool :=
  (y % 4 = 0 && !(y % 100 = 0)) || y % 400 = 0

/-- Days in a Gregorian month (`m` is 1-based). -/
def daysInMonth (y m : Nat) : Nat :=
  if m = 2 then (if isLeapYear y then 29 else 28)
  else if m = 4 ∨ m = 6 ∨ m = 9 ∨ m = 11 then 30
  else 31

/-- The civil day before `(y, m, d)`. -/
def prevCivilDay (y m d : Nat) : Nat × Nat × Nat :=
  if 1 < d then (y, m, d - 1)
  else if 1 < m then (y, m - 1, daysInMonth y (m - 1))
  else (y - 1, 12, 31)

/-!
The page feeds arbitrary cell text into the host builtin `new Date(text)`
followed by `.toISOString()`.  The builtin is V8's date parser (the code is
a Chrome extension).  We embed a fragment of V8's legacy (non-ISO) parser,
three-valued so that the model never asserts behaviour of the builtin we
have not pinned down:

* `valid y m d`: `new Date(text)` denotes local midnight on the civil date
  `(y, m, d)` and `toISOString` succeeds;
* `invalid`: `new Date(text)` is an Invalid Date, so `toISOString` throws
  a `RangeError`;
* `outside`: the text lies outside the modelled fragment — no theorem in
  this file evaluates the parser there.

The modelled fragment and its V8 rules:

* tokens are split on single spaces; every token must be pure ASCII
  letters or 1–4 pure ASCII digits, and there must be at least two tokens
  (a single token can engage V8's ISO parser, e.g. `"2025"`, so it is
  `outside`);
* a word of three or more letters whose lowercasing is a prefix (length
  at least 3) of a full month name names that month (V8 matches keywords
  by three-letter prefix, so `"Jan"`, `"January"` both work); a second
  month word is `outside`;
* a word starting like any other keyword of V8's table (`am`/`pm`, the
  time-zone names, the ISO `t`/`z`) is `outside` — such words change the
  time or zone;
* any other word is a garbage word: V8 skips garbage words, but they are
  illegal once a number has been read, which makes the whole text an
  Invalid Date;
* more than three numbers is `outside`;
* composition without a named month and a single number `n`: V8 takes `n`
  as a month and defaults day and year (year 1 becomes 2001), so
  `1 ≤ n ≤ 12` is the valid date `2001-n-01` (the well-known quirk that
  `new Date("12")` is Dec 1 2001) while `13 ≤ n ≤ 99` fails the month
  check and is an Invalid Date; `n = 0` and larger `n` are `outside`;
  several numbers with no month are `outside`;
* composition with a named month: one number is the day (year 2001); with
  two numbers, a number in 1..31 is the day and the other the year, years
  0–49 gain 2000 and 50–99 gain 1900; a day outside 1..31 is an Invalid
  Date, and a day beyond the month's length is `outside`.
-/

/-- Full month names with their 1-based numbers, for V8's prefix-based
keyword match. -/
def monthFullNames : List (String × Nat) :=
  [("january", 1), ("february", 2), ("march", 3), ("april", 4),
   ("may", 5), ("june", 6), ("july", 7), ("august", 8),
   ("september", 9), ("october", 10), ("november", 11), ("december", 12)]

/-- The month a lowercased word of length at least 3 names, by prefix. -/
def monthPrefixOf (w : String) : Option Nat :=
  (monthFullNames.find? (fun p => w.data.isPrefixOf p.1.data)).map (fun p => p.2)

/-- Lowercased beginnings that engage non-month entries of V8's date
keyword table (am/pm, time-zone names, ISO separators): words starting
like these are kept outside the modelled fragment. -/
def nonMonthKeywords : List String :=
  ["am", "pm", "ut", "z", "t", "gmt", "utc", "cdt", "cst", "edt", "est",
   "mdt", "mst", "pdt", "pst"]

/-- Whether a lowercased word starts like a non-month keyword. -/
def startsLikeKeyword (w : String) : Bool :=
  nonMonthKeywords.any (fun k => k.data.isPrefixOf w.data)

/-- One token of the modelled date fragment. -/
inductive DateToken where
  | garbage
  | monthName : Nat → DateToken
  | number : Nat → DateToken
  | outsideTok
deriving DecidableEq

/-- Classify one space-separated token of the date text. -/
def classifyToken (tok : String) : DateToken :=
  let cs := tok.data
  if cs.isEmpty then .outsideTok
  else if cs.all Char.isDigit then
    if cs.length ≤ 4 then
      match parseNatDigits tok with
      | some n => .number n
      | none => .outsideTok
    else .outsideTok
  else if cs.all (fun c => isAsciiUpper c || isAsciiLower c) then
    let w := jsToLower tok
    if w.data.length < 3 then .outsideTok
    else
      match monthPrefixOf w with
      | some m => .monthName m
      | none => if startsLikeKeyword w then .outsideTok else .garbage
  else .outsideTok

/-- Outcome of the modelled `new Date(text)`. -/
inductive JsDate where
  | valid : Nat → Nat → Nat → JsDate
  | invalid : JsDate
  | outside : JsDate
deriving DecidableEq

/-- V8's `IsDay` bound check (1..31). -/
def isDayNum (n : Nat) : Bool := 1 ≤ n && n ≤ 31

/-- V8's `IsMonth` bound check (1..12). -/
def isMonthNum (n : Nat) : Bool := 1 ≤ n && n ≤ 12

/-- V8's two-digit-year widening: 0–49 to 2000s, 50–99 to 1900s. -/
def adjustYear (y : Nat) : Nat :=
  if y ≤ 49 then y + 2000 else if y ≤ 99 then y + 1900 else y

/-- Compose the collected named month and numbers into a date, per the
fragment rules above. -/
def composeDate (namedMonth : Option Nat) (nums : List Nat) : JsDate :=
  match namedMonth, nums with
  | none, [] => .invalid
  | none, [n] =>
    if n = 0 then .outside
    else if isMonthNum n then .valid 2001 n 1
    else if n ≤ 99 then .invalid
    else .outside
  | none, _ => .outside
  | some m, [d] =>
    if !(isDayNum d) then .invalid
    else if d ≤ daysInMonth 2001 m then .valid 2001 m d
    else .outside
  | some m, [a, b] =>
    let yd := if isDayNum a then (adjustYear b, a) else (adjustYear a, b)
    if !(isDayNum yd.2) then .invalid
    else if yd.2 ≤ daysInMonth yd.1 m then .valid yd.1 m yd.2
    else .outside
  | some _, _ => .outside

/-- The token loop of the modelled legacy parser, carrying the named month
and the numbers read so far; a garbage word after a number makes the text
an Invalid Date. -/
def dateScanLoop : List String → Option Nat → List Nat → JsDate
  | [], namedMonth, nums => composeDate namedMonth nums
  | tok :: rest, namedMonth, nums =>
    match classifyToken tok with
    | .outsideTok => .outside
    | .garbage =>
      if nums.isEmpty then dateScanLoop rest namedMonth nums else .invalid
    | .monthName m =>
      match namedMonth with
      | some _ => .outside
      | none => dateScanLoop rest (some m) nums
    | .number n =>
      if nums.length < 3 then dateScanLoop rest namedMonth (nums ++ [n])
      else .outside

/-- The modelled `new Date(text)`. -/
def jsDateParse (text : String) : JsDate :=
  match splitSpace text with
  | [] => .outside
  | [_] => .outside
  | tokens => dateScanLoop tokens none []

/-- The date part of `toISOString()` for local midnight on `(y, m, d)`
when the host clock lies `tzEastMinutes` east of UTC (negative west;
real offsets satisfy `-1440 < tzEastMinutes < 1440`): east of UTC, local
midnight falls on the previous UTC day. -/
def isoDayUtc (tzEastMinutes : Int) (y m d : Nat) : String :=
  let c := if 0 < tzEastMinutes then prevCivilDay y m d else (y, m, d)
  pad4 c.1 ++ "-" ++ pad2 c.2.1 ++ "-" ++ pad2 c.2.2

/-- `InvoiceDataManager.extractInvoiceId(cells)`: the first trimmed cell
text matching the invoice-id regex, `''` when none does. -/
def extractInvoiceId : List String → String
  | [] => ""
  | cell :: rest =>
    let text := jsTrim cell
    if invoiceIdMatch text then text else extractInvoiceId rest

/-- The cell loop of `extractDate`, carrying the running `dateCount`.
Only the `occurrence`-th matching cell is handed to `new Date`; the
result is `none` when that cell's text falls outside the modelled parser
fragment. -/
def extractDateGo (tzEastMinutes : Int) (occurrence : Nat) :
    List String → Nat → Option (Except String String)
  | [], _ => some (.ok "")
  | cell :: rest, dateCount =>
    let text := jsTrim cell
    if matchDatePattern text then
      if dateCount = occurrence then
        match jsDateParse text with
        | .valid y m d => some (.ok (isoDayUtc tzEastMinutes y m d))
        | .invalid => some (.error "RangeError: Invalid time value")
        | .outside => none
      else extractDateGo tzEastMinutes occurrence rest (dateCount + 1)
    else extractDateGo tzEastMinutes occurrence rest dateCount

/-- `InvoiceDataManager.extractDate(cells, occurrence)` with the throw made
explicit: scanning cells left to right, the `occurrence`-th (0-indexed)
trimmed cell matching the date guard is converted with
`new Date(text).toISOString()` under host offset `tzEastMinutes`; a
matching cell whose text is an Invalid Date makes `toISOString` throw
(`Except.error`); no matching cell yields `.ok ""`; a cell outside the
modelled fragment of the builtin yields `none`. -/
def extractDate (tzEastMinutes : Int) (cells : List String)
    (occurrence : Nat) : Option (Except String String) :=
  extractDateGo tzEastMinutes occurrence cells 0

/-- `InvoiceDataManager.extractMarketplace(cells)`: the first trimmed cell
text starting with `Amazon.`, with that prefix stripped and lowercased;
`'unknown'` when none is found. -/
def extractMarketplace : List String → String
  | [] => "unknown"
  | cell :: rest =>
    let text := jsTrim cell
    if jsStartsWith text "Amazon." then jsToLower (jsDrop text 7)
    else extractMarketplace rest

/-- A row's button-like control element, reduced to its attribute map
(`getAttribute` consults it; a DOM element never repeats an attribute). -/
structure DomButton where
  attrs : List (String × String)
deriving DecidableEq

/-- `Element.getAttribute(name)`: the attribute's value, or `null`
(`none`) when the element does not carry the attribute. -/
def getAttribute (b : DomButton) (name : String) : Option String :=
  lookupFirst b.attrs name

/-- The object built by `extractButtonData`.  Each field is `Option String`
because `getAttribute` yields `null` for an absent attribute (and the `{}`
returned for a missing button leaves every field `undefined`). -/
structure ButtonData where
  endDate : Option String
  fileType : Option String
  filterName : Option String
  invoice : Option String
  payeeRegistrationNumber : Option String
  rarId : Option String
  shedDocumentName : Option String
deriving DecidableEq

/-- The field-less object `{}` returned when the button is missing: every
named field reads back absent. -/
def emptyButtonData : ButtonData :=
  { endDate := none, fileType := none, filterName := none, invoice := none,
    payeeRegistrationNumber := none, rarId := none, shedDocumentName := none }

/-- `InvoiceDataManager.extractButtonData(button)`: `{}` when the button is
absent, otherwise the fixed set of named `data-` attributes read with
`getAttribute`. -/
def extractButtonData : Option DomButton → ButtonData
  | none => emptyButtonData
  | some b =>
    { endDate := getAttribute b "data-enddate",
      fileType := getAttribute b "data-filetype",
      filterName := getAttribute b "data-filtername",
      invoice := getAttribute b "data-invoice",
      payeeRegistrationNumber := getAttribute b "data-payeeregistrationnumber",
      rarId := getAttribute b "data-rarid",
      shedDocumentName := getAttribute b "data-sheddocumentname" }

/-! ## Data model of `InvoiceDataManager` -/

/-- The record `parseRowData` builds for one table row (the live DOM
`element` reference is outside the data model). -/
structure RowData where
  index : Nat
  invoiceId : String
  startDate : String
  endDate : String
  marketplace : String
  textContent : String
  documentVersionId : String
  buttonData : ButtonData
  isVisible : Bool
  isSelected : Bool
deriving DecidableEq

/-- The filter object assembled by `FilterManager.currentFilters`: all four
fields are strings, the empty string meaning "condition not set".
`applyFilters` keys its memoization cache by `JSON.stringify(filters)`,
which is injective on these four string fields, so the spec itself serves
as the cache key here. -/
structure FilterSpec where
  marketplace : String
  dateFrom : String
  dateTo : String
  status : String
deriving DecidableEq

/-- One value of the `downloadStatus` map: the object written by
`markAsDownloaded` (no `error` field, hence `none`) or by `markAsFailed`. -/
structure StatusEntry where
  status : String
  timestamp : Nat
  attempts : Nat
  error : Option String
deriving DecidableEq

/-- `CONFIG.RETRY_ATTEMPTS`. -/
def RETRY_ATTEMPTS : Nat := 3

/-- The mutable state of an `InvoiceDataManager` instance.  The
`rowDataCache` (keyed by row index) and the `isInitialized` flag are kept
for fidelity; persistence (`chrome.storage`) is an external fire-and-forget
collaborator and not part of the in-memory state. -/
structure InvoiceDataManager where
  allRows : List RowData
  filteredRows : List RowData
  downloadedInvoices : List String
  rowDataCache : List (Nat × RowData)
  filterCache : List (FilterSpec × List RowData)
  isInitialized : Bool
  downloadStatus : List (String × StatusEntry)
deriving DecidableEq

/-- The state `new InvoiceDataManager()` constructs. -/
def newManager : InvoiceDataManager :=
  { allRows := [], filteredRows := [], downloadedInvoices := [],
    rowDataCache := [], filterCache := [], isInitialized := false,
    downloadStatus := [] }

/-- The `attempts` count stored for an invoice id, `0` when the map has no
entry: `(this.downloadStatus.get(invoiceId)?.attempts || 0)`. -/
def attemptsOf (dm : InvoiceDataManager) (invoiceId : String) : Nat :=
  match lookupFirst dm.downloadStatus invoiceId with
  | some e => e.attempts
  | none => 0

/-- `InvoiceDataManager.markAsDownloaded(invoiceId)` at clock reading
`now` (`Date.now()`); the trailing `saveDownloadStatus()` call is external
persistence. -/
def markAsDownloaded (dm : InvoiceDataManager) (invoiceId : String)
    (now : Nat) : InvoiceDataManager :=
  { dm with
    downloadedInvoices := setAdd dm.downloadedInvoices invoiceId,
    downloadStatus := updateMap dm.downloadStatus invoiceId
      { status := "downloaded", timestamp := now,
        attempts := attemptsOf dm invoiceId + 1, error := none } }

/-- `InvoiceDataManager.markAsFailed(invoiceId, error)` at clock reading
`now`. -/
def markAsFailed (dm : InvoiceDataManager) (invoiceId error : String)
    (now : Nat) : InvoiceDataManager :=
  { dm with
    downloadStatus := updateMap dm.downloadStatus invoiceId
      { status := "failed", timestamp := now,
        attempts := attemptsOf dm invoiceId + 1, error := some error } }

/-- `InvoiceDataManager.getDownloadStatus(invoiceId)`, the derived
per-invoice status. -/
def getDownloadStatus (dm : InvoiceDataManager) (invoiceId : String) : String :=
  if invoiceId ∈ dm.downloadedInvoices then "downloaded"
  else
    match lookupFirst dm.downloadStatus invoiceId with
    | some st =>
      if st.status = "failed" ∧ RETRY_ATTEMPTS ≤ st.attempts then "failed"
      else "pending"
    | none => "pending"

/-- `InvoiceDataManager.clearDownloadHistory()`: both the downloaded set and
the status map are emptied (the `chrome.storage.local.remove` call is
external persistence). -/
def clearDownloadHistory (dm : InvoiceDataManager) : InvoiceDataManager :=
  { dm with downloadedInvoices := [], downloadStatus := [] }

/-! ## Filter Engine (`InvoiceDataManager.applyFilters`) -/

/-- JavaScript string truthiness: `''` is falsy, any other string truthy. -/
def truthy (s : String) : Bool := !(s == "")

/-- `needle.isPrefixOf`-based substring search over character lists. -/
def subOccurs (needle : List Char) : List Char → Bool
  | [] => needle.isEmpty
  | c :: rest => needle.isPrefixOf (c :: rest) || subOccurs needle rest

/-- JavaScript `hay.includes(needle)`. -/
def strIncludes (hay needle : String) : Bool := subOccurs needle.data hay.data

/-- The `dateFrom` rejection condition of `applyFilters`:
`filters.dateFrom && data.endDate && data.endDate < filters.dateFrom`
(ISO strings compare lexicographically, as JS `<` does). -/
def dateFromExcludes (filters : FilterSpec) (data : RowData) : Bool :=
  truthy filters.dateFrom && truthy data.endDate &&
    decide (data.endDate < filters.dateFrom)

/-- The `dateTo` rejection condition of `applyFilters`:
`filters.dateTo && data.startDate && data.startDate > filters.dateTo`. -/
def dateToExcludes (filters : FilterSpec) (data : RowData) : Bool :=
  truthy filters.dateTo && truthy data.startDate &&
    decide (filters.dateTo < data.startDate)

/-- The predicate body of the `this.allRows.filter(...)` call in
`applyFilters`: marketplace substring, the two date bounds, then the
derived-status comparison, each rejecting when its guard fires. -/
def rowPasses (dm : InvoiceDataManager) (filters : FilterSpec)
    (data : RowData) : Bool :=
  if truthy filters.marketplace &&
      !(strIncludes data.textContent (jsToLower filters.marketplace)) then false
  else if dateFromExcludes filters data then false
  else if dateToExcludes filters data then false
  else if truthy filters.status &&
      !(getDownloadStatus dm data.invoiceId == filters.status) then false
  else true

/-- `InvoiceDataManager.applyFilters(filters)`: on a cache hit the stored
sequence is returned unchanged; on a miss the rows are filtered, the oldest
cache entry is dropped when the cache already holds more than 50 entries,
and the fresh result is appended under the serialized spec.  Returns the
updated manager together with the returned `filteredRows`. -/
def applyFilters (dm : InvoiceDataManager) (filters : FilterSpec) :
    InvoiceDataManager × List RowData :=
  match lookupFirst dm.filterCache filters with
  | some rows => ({ dm with filteredRows := rows }, rows)
  | none =>
    let rows := dm.allRows.filter (rowPasses dm filters)
    let trimmed :=
      if 50 < dm.filterCache.length then dm.filterCache.tail
      else dm.filterCache
    ({ dm with filteredRows := rows,
               filterCache := trimmed ++ [(filters, rows)] }, rows)

/-! ## Status Store operation sequences -/

/-- A Status Store mutation with no history reset: a successful download
(`markAsDownloaded`) or a failed one (`markAsFailed`), each carrying its
`Date.now()` reading. -/
inductive StoreOp where
  | success : String → Nat → StoreOp
  | failure : String → String → Nat → StoreOp
deriving DecidableEq

/-- Apply one `StoreOp` to the manager. -/
def applyStoreOp (dm : InvoiceDataManager) : StoreOp → InvoiceDataManager
  | .success invoiceId now => markAsDownloaded dm invoiceId now
  | .failure invoiceId e now => markAsFailed dm invoiceId e now

/-- Apply a sequence of `StoreOp`s in order. -/
def applyStoreOps (dm : InvoiceDataManager) (ops : List StoreOp) :
    InvoiceDataManager :=
  ops.foldl applyStoreOp dm

/-- A Status Store mutation including the history reset
(`clearDownloadHistory`). -/
inductive StatusMutation where
  | success : String → Nat → StatusMutation
  | failure : String → String → Nat → StatusMutation
  | clearHistory : StatusMutation
deriving DecidableEq

/-- Apply one `StatusMutation` to the manager. -/
def applyStatusMutation (dm : InvoiceDataManager) :
    StatusMutation → InvoiceDataManager
  | .success invoiceId now => markAsDownloaded dm invoiceId now
  | .failure invoiceId e now => markAsFailed dm invoiceId e now
  | .clearHistory => clearDownloadHistory dm

/-! ## Download Orchestrator (`InvoiceDownloader.startDirectDownload`) -/

/-- The outcome of one `downloadPdfDirect` call: resolution, or the message
of the thrown error (timeouts and cancellation aborts surface here as
`'Download timeout'`). -/
inductive DownloadResult where
  | ok : DownloadResult
  | err : String → DownloadResult
deriving DecidableEq

/-- The body of the download loop applied to the items it actually runs
for: `markAsDownloaded` in the `try` branch, `markAsFailed(id, message)` in
the `catch` branch, and in either case the loop advances to the next item
(a failure never stops the batch). -/
def processQueue (dm : InvoiceDataManager) (now : Nat) :
    List (RowData × DownloadResult) → InvoiceDataManager
  | [] => dm
  | (item, .ok) :: rest =>
    processQueue (markAsDownloaded dm item.invoiceId now) now rest
  | (item, .err m) :: rest =>
    processQueue (markAsFailed dm item.invoiceId m now) now rest

/-- One run of `startDirectDownload` over the selected `queue`, each item
paired with the outcome its `downloadPdfDirect` call would produce.
`cancelledBefore` is the first index at which the loop condition
`i < queue.length && this.isDownloading` reads a cleared flag
(`queue.length` when `cancelDownload` is never invoked): items before it
are processed, items from it on are skipped with their status entries
untouched.  An in-flight item aborted by cancellation still runs its
`catch` branch and therefore appears inside the processed prefix with an
`err` outcome. -/
def startDirectDownload (dm : InvoiceDataManager)
    (queue : List (RowData × DownloadResult)) (cancelledBefore now : Nat) :
    InvoiceDataManager :=
  processQueue dm now (queue.take cancelledBefore)

/-- How many processed items carry the given invoice id. -/
def countId (invoiceId : String)
    (items : List (RowData × DownloadResult)) : Nat :=
  (items.filter (fun p => p.1.invoiceId == invoiceId)).length

/-! ## Concrete states used by witnesses and counterexamples -/

/-- A family of pairwise distinct filter specs (their `status` fields
differ), as a user typing distinct status strings would produce. -/
def specNum (i : Nat) : FilterSpec :=
  { marketplace := "", dateFrom := "", dateTo := "", status := toString i }

/-- The manager after `n` `applyFilters` calls with the `n` pairwise
distinct specs `specNum 0 .. specNum (n-1)`, starting from a fresh
manager. -/
def applyMany (n : Nat) : InvoiceDataManager :=
  (List.range n).foldl (fun dm i => (applyFilters dm (specNum i)).1) newManager

/-- A manager holding one failed status entry at the retry limit and no
recorded success. -/
def failedManager : InvoiceDataManager :=
  { newManager with
    downloadStatus := [("GB-AEU-2025-0001",
      { status := "failed", timestamp := 7, attempts := 3,
        error := some "HTTP 500" })] }

/-- A manager whose filter cache holds one entry, produced by a single
`applyFilters` call. -/
def cachedManager : InvoiceDataManager := (applyFilters newManager (specNum 0)).1

/-! ## Helper lemmas -/

theorem lookupFirst_updateMap_self {α β : Type} [DecidableEq α]
    (m : List (α × β)) (k : α) (v : β) :
    lookupFirst (updateMap m k v) k = some v := by
  induction m with
  | nil => simp [updateMap, lookupFirst]
  | cons p rest ih =>
    obtain ⟨a, b⟩ := p
    by_cases h : a = k <;> simp [updateMap, lookupFirst, h, ih]

theorem lookupFirst_updateMap_ne {α β : Type} [DecidableEq α]
    (m : List (α × β)) (k q : α) (v : β) (h : q ≠ k) :
    lookupFirst (updateMap m k v) q = lookupFirst m q := by
  induction m with
  | nil => simp [updateMap, lookupFirst, Ne.symm h]
  | cons p rest ih =>
    obtain ⟨a, b⟩ := p
    by_cases ha : a = k
    · subst ha
      simp [updateMap, lookupFirst, Ne.symm h]
    · simp [updateMap, lookupFirst, ha, ih]

theorem lookupFirst_append_right {α β : Type} [DecidableEq α]
    (m : List (α × β)) (k : α) (v : β)
    (h : lookupFirst m k = none) :
    lookupFirst (m ++ [(k, v)]) k = some v := by
  induction m with
  | nil => simp [lookupFirst]
  | cons p rest ih =>
    obtain ⟨a, b⟩ := p
    rw [lookupFirst] at h
    by_cases ha : a = k
    · rw [if_pos ha] at h
      exact absurd h (by simp)
    · rw [if_neg ha] at h
      rw [List.cons_append, lookupFirst, if_neg ha]
      exact ih h

theorem lookupFirst_tail_none {α β : Type} [DecidableEq α]
    (m : List (α × β)) (k : α) (h : lookupFirst m k = none) :
    lookupFirst m.tail k = none := by
  cases m with
  | nil => simp [lookupFirst]
  | cons p rest =>
    obtain ⟨a, b⟩ := p
    by_cases ha : a = k
    · simp [lookupFirst, ha] at h
    · simpa [lookupFirst, ha] using h

theorem mem_setAdd_self (s : List String) (x : String) : x ∈ setAdd s x := by
  by_cases h : x ∈ s <;> simp [setAdd, h]

theorem mem_setAdd_of_mem (s : List String) (x y : String) (h : y ∈ s) :
    y ∈ setAdd s x := by
  by_cases hx : x ∈ s <;> simp [setAdd, hx, h]

theorem mem_setAdd_iff (s : List String) (x y : String) (h : y ≠ x) :
    y ∈ setAdd s x ↔ y ∈ s := by
  by_cases hx : x ∈ s <;> simp [setAdd, hx, h]

theorem attemptsOf_markAsDownloaded_self (dm : InvoiceDataManager)
    (invoiceId : String) (now : Nat) :
    attemptsOf (markAsDownloaded dm invoiceId now) invoiceId =
      attemptsOf dm invoiceId + 1 := by
  simp [attemptsOf, markAsDownloaded, lookupFirst_updateMap_self]

theorem attemptsOf_markAsFailed_self (dm : InvoiceDataManager)
    (invoiceId e : String) (now : Nat) :
    attemptsOf (markAsFailed dm invoiceId e now) invoiceId =
      attemptsOf dm invoiceId + 1 := by
  simp [attemptsOf, markAsFailed, lookupFirst_updateMap_self]

theorem attemptsOf_markAsDownloaded_ne (dm : InvoiceDataManager)
    (invoiceId q : String) (now : Nat) (h : q ≠ invoiceId) :
    attemptsOf (markAsDownloaded dm invoiceId now) q = attemptsOf dm q := by
  simp [attemptsOf, markAsDownloaded, lookupFirst_updateMap_ne _ _ _ _ h]

theorem attemptsOf_markAsFailed_ne (dm : InvoiceDataManager)
    (invoiceId e q : String) (now : Nat) (h : q ≠ invoiceId) :
    attemptsOf (markAsFailed dm invoiceId e now) q = attemptsOf dm q := by
  simp [attemptsOf, markAsFailed, lookupFirst_updateMap_ne _ _ _ _ h]

theorem getDownloadStatus_of_mem (dm : InvoiceDataManager)
    (invoiceId : String) (h : invoiceId ∈ dm.downloadedInvoices) :
    getDownloadStatus dm invoiceId = "downloaded" := by
  simp [getDownloadStatus, h]

theorem mem_downloaded_applyStoreOps (dm : InvoiceDataManager)
    (ops : List StoreOp) (invoiceId : String)
    (h : invoiceId ∈ dm.downloadedInvoices) :
    invoiceId ∈ (applyStoreOps dm ops).downloadedInvoices := by
  induction ops generalizing dm with
  | nil => exact h
  | cons op rest ih =>
    rw [applyStoreOps, List.foldl_cons]
    apply ih
    cases op with
    | success i now => exact mem_setAdd_of_mem _ _ _ h
    | failure i e now => exact h

theorem countId_cons (invoiceId : String) (p : RowData × DownloadResult)
    (rest : List (RowData × DownloadResult)) :
    countId invoiceId (p :: rest) =
      countId invoiceId rest + (if p.1.invoiceId = invoiceId then 1 else 0) := by
  by_cases h : p.1.invoiceId = invoiceId <;>
    simp [countId, List.filter_cons, h]

theorem processQueue_attempts (dm : InvoiceDataManager) (now : Nat)
    (items : List (RowData × DownloadResult)) (invoiceId : String) :
    attemptsOf (processQueue dm now items) invoiceId =
      attemptsOf dm invoiceId + countId invoiceId items := by
  induction items generalizing dm with
  | nil => simp [processQueue, countId]
  | cons p rest ih =>
    obtain ⟨item, r⟩ := p
    rw [countId_cons]
    cases r with
    | ok =>
      rw [show processQueue dm now ((item, DownloadResult.ok) :: rest) =
            processQueue (markAsDownloaded dm item.invoiceId now) now rest from rfl,
          ih]
      by_cases h : item.invoiceId = invoiceId
      · rw [h, attemptsOf_markAsDownloaded_self]
        simp
        omega
      · rw [attemptsOf_markAsDownloaded_ne _ _ _ _ (Ne.symm h)]
        simp [h]
    | err m =>
      rw [show processQueue dm now ((item, DownloadResult.err m) :: rest) =
            processQueue (markAsFailed dm item.invoiceId m now) now rest from rfl,
          ih]
      by_cases h : item.invoiceId = invoiceId
      · rw [h, attemptsOf_markAsFailed_self]
        simp
        omega
      · rw [attemptsOf_markAsFailed_ne _ _ _ _ _ (Ne.symm h)]
        simp [h]

theorem processQueue_frame (dm : InvoiceDataManager) (now : Nat)
    (items : List (RowData × DownloadResult)) (invoiceId : String)
    (h : countId invoiceId items = 0) :
    lookupFirst (processQueue dm now items).downloadStatus invoiceId =
      lookupFirst dm.downloadStatus invoiceId ∧
    (invoiceId ∈ (processQueue dm now items).downloadedInvoices ↔
      invoiceId ∈ dm.downloadedInvoices) := by
  induction items generalizing dm with
  | nil => exact ⟨rfl, Iff.rfl⟩
  | cons p rest ih =>
    obtain ⟨item, r⟩ := p
    rw [countId_cons] at h
    have hne : item.invoiceId ≠ invoiceId := by
      intro e
      simp [e] at h
    have hrest : countId invoiceId rest = 0 := by omega
    have hsym : invoiceId ≠ item.invoiceId := fun e => hne e.symm
    cases r with
    | ok =>
      rw [show processQueue dm now ((item, DownloadResult.ok) :: rest) =
            processQueue (markAsDownloaded dm item.invoiceId now) now rest from rfl]
      obtain ⟨h1, h2⟩ := ih (markAsDownloaded dm item.invoiceId now) hrest
      refine ⟨?_, ?_⟩
      · rw [h1]
        simp [markAsDownloaded, lookupFirst_updateMap_ne _ _ _ _ hsym]
      · rw [h2]
        simp [markAsDownloaded, mem_setAdd_iff _ _ _ hsym]
    | err m =>
      rw [show processQueue dm now ((item, DownloadResult.err m) :: rest) =
            processQueue (markAsFailed dm item.invoiceId m now) now rest from rfl]
      obtain ⟨h1, h2⟩ := ih (markAsFailed dm item.invoiceId m now) hrest
      refine ⟨?_, ?_⟩
      · rw [h1]
        simp [markAsFailed, lookupFirst_updateMap_ne _ _ _ _ hsym]
      · rw [h2]
        simp [markAsFailed]

/-! ## Claims -/

set_option maxRecDepth 40000 in
/-- C1 counterexample: starting from a fresh manager, 51 `applyFilters`
calls with 51 pairwise distinct specs leave the memoization cache holding
51 entries, so the cache is not capped at 50 entries at all times: the
guard `this.filterCache.size > 50` runs before the insertion and only
fires once the size already exceeds 50. -/
theorem filter_cache_51_entries :
    (applyMany 51).filterCache.length = 51 ∧
    ¬ (applyMany 51).filterCache.length ≤ 50 := by decide

/-- C1 (amended): the memoization cache of `applyFilters` holds at most 51
entries: inserting a result for a spec not already present while the cache
holds more than 50 entries first evicts the oldest-inserted entry (the
head of the insertion-ordered map). -/
theorem filter_cache_bound (dm : InvoiceDataManager) (filters : FilterSpec)
    (h : dm.filterCache.length ≤ 51) :
    (applyFilters dm filters).1.filterCache.length ≤ 51 ∧
    (lookupFirst dm.filterCache filters = none →
      50 < dm.filterCache.length →
      (applyFilters dm filters).1.filterCache =
        dm.filterCache.tail ++
          [(filters, dm.allRows.filter (rowPasses dm filters))]) := by
  cases hl : lookupFirst dm.filterCache filters with
  | some rows =>
    unfold applyFilters
    rw [hl]
    exact ⟨h, fun hn => absurd hn (by simp)⟩
  | none =>
    unfold applyFilters
    rw [hl]
    by_cases hb : 50 < dm.filterCache.length
    · refine ⟨?_, fun _ _ => by simp [hb]⟩
      simp [hb, List.length_tail]
      omega
    · refine ⟨?_, fun _ hc => absurd hc hb⟩
      simp [hb]
      omega

/-- Witness for `filter_cache_bound` at a concrete manager and spec. -/
theorem filter_cache_bound_witness :
    newManager.filterCache.length ≤ 51 ∧
    ((applyFilters newManager (specNum 0)).1.filterCache.length ≤ 51 ∧
     (lookupFirst newManager.filterCache (specNum 0) = none →
       50 < newManager.filterCache.length →
       (applyFilters newManager (specNum 0)).1.filterCache =
         newManager.filterCache.tail ++
           [(specNum 0,
             newManager.allRows.filter (rowPasses newManager (specNum 0)))])) :=
  ⟨by decide, filter_cache_bound newManager (specNum 0) (by decide)⟩

/-- C2 (code bug): the Row Parser is not total.  A cell whose trimmed
text is `"abc def 13"` matches the date guard `/^\w{3}\s\w{3}\s\d{2}/`;
V8 skips the two garbage words and reads the lone number 13, which fails
its month check, so `new Date("abc def 13")` is an Invalid Date and
`.toISOString()` throws a `RangeError` — `extractDate` raises instead of
returning the empty string, in every host time zone.  By contrast
`"abc def 12"` parses (the lone number 12 is a month, giving Dec 1 2001),
so that cell returns a junk ISO string rather than throwing; a well-formed
date cell goes through; and the invoice-id and marketplace extractors are
total on the failing cell. -/
theorem extract_date_raises_on_invalid_text :
    (∀ tz : Int, extractDate tz ["abc def 13"] 0 =
        some (Except.error "RangeError: Invalid time value")) ∧
    (∀ tz : Int, extractDate tz ["abc def 12"] 0 =
        some (Except.ok (isoDayUtc tz 2001 12 1))) ∧
    extractDate 0 ["Wed Jan 15 2025"] 0 = some (Except.ok "2025-01-15") ∧
    extractDate 0 [] 0 = some (Except.ok "") ∧
    extractInvoiceId ["abc def 13"] = "" ∧
    extractMarketplace ["abc def 13"] = "unknown" := by
  exact ⟨fun tz => rfl, fun tz => rfl, rfl, rfl, by rfl, by rfl⟩

/-- C3: once `markAsDownloaded` has recorded a success for an invoice id,
every later sequence of success/failure recordings (no history reset)
leaves `getDownloadStatus` at `"downloaded"` for that id. -/
theorem downloaded_is_sticky (dm : InvoiceDataManager) (invoiceId : String)
    (now : Nat) (ops : List StoreOp) :
    getDownloadStatus
      (applyStoreOps (markAsDownloaded dm invoiceId now) ops) invoiceId =
      "downloaded" := by
  apply getDownloadStatus_of_mem
  apply mem_downloaded_applyStoreOps
  exact mem_setAdd_self _ _

/-- C4: for an invoice id with no recorded success, the derived status is
`"failed"` exactly when the stored entry has state `"failed"` and at least
`RETRY_ATTEMPTS` = 3 attempts; in every other case (no entry, fewer
attempts, or a non-failed state) it is `"pending"`. -/
theorem retry_ceiling (dm : InvoiceDataManager) (invoiceId : String)
    (h : invoiceId ∉ dm.downloadedInvoices) :
    (getDownloadStatus dm invoiceId = "failed" ↔
      ∃ e, lookupFirst dm.downloadStatus invoiceId = some e ∧
        e.status = "failed" ∧ RETRY_ATTEMPTS ≤ e.attempts) ∧
    (getDownloadStatus dm invoiceId = "failed" ∨
      getDownloadStatus dm invoiceId = "pending") := by
  unfold getDownloadStatus
  rw [if_neg h]
  cases hl : lookupFirst dm.downloadStatus invoiceId with
  | none =>
    refine ⟨⟨fun he => absurd he (by decide), ?_⟩, Or.inr rfl⟩
    rintro ⟨e, he, -, -⟩
    exact Option.noConfusion he
  | some st =>
    dsimp only
    by_cases hc : st.status = "failed" ∧ RETRY_ATTEMPTS ≤ st.attempts
    · rw [if_pos hc]
      exact ⟨⟨fun _ => ⟨st, rfl, hc.1, hc.2⟩, fun _ => rfl⟩, Or.inl rfl⟩
    · rw [if_neg hc]
      refine ⟨⟨fun he => absurd he (by decide), ?_⟩, Or.inr rfl⟩
      rintro ⟨e, he, hf, ha⟩
      cases Option.some.inj he
      exact absurd ⟨hf, ha⟩ hc

/-- Witness for `retry_ceiling` at a manager holding a failed entry with
three attempts. -/
theorem retry_ceiling_witness :
    "GB-AEU-2025-0001" ∉ failedManager.downloadedInvoices ∧
    ((getDownloadStatus failedManager "GB-AEU-2025-0001" = "failed" ↔
       ∃ e, lookupFirst failedManager.downloadStatus "GB-AEU-2025-0001" =
           some e ∧ e.status = "failed" ∧ RETRY_ATTEMPTS ≤ e.attempts) ∧
     (getDownloadStatus failedManager "GB-AEU-2025-0001" = "failed" ∨
       getDownloadStatus failedManager "GB-AEU-2025-0001" = "pending")) :=
  ⟨by decide, retry_ceiling failedManager "GB-AEU-2025-0001" (by decide)⟩

/-- C5: in one `startDirectDownload` run, every processed item contributes
exactly one terminal status update — the stored attempt count of an
invoice id grows by exactly its number of occurrences in the processed
prefix, whatever mix of successes and failures the run sees (a failure
never stops the batch) — while an id absent from the processed prefix
(an item skipped by cancellation) keeps its status entry and its
membership in the downloaded set unchanged. -/
theorem one_terminal_update_per_item (dm : InvoiceDataManager)
    (queue : List (RowData × DownloadResult)) (cancelledBefore now : Nat)
    (invoiceId : String) :
    attemptsOf (startDirectDownload dm queue cancelledBefore now) invoiceId =
      attemptsOf dm invoiceId +
        countId invoiceId (queue.take cancelledBefore) ∧
    (countId invoiceId (queue.take cancelledBefore) = 0 →
      lookupFirst
          (startDirectDownload dm queue cancelledBefore now).downloadStatus
          invoiceId =
        lookupFirst dm.downloadStatus invoiceId ∧
      (invoiceId ∈
          (startDirectDownload dm queue cancelledBefore now).downloadedInvoices ↔
        invoiceId ∈ dm.downloadedInvoices)) := by
  refine ⟨processQueue_attempts dm now (queue.take cancelledBefore) invoiceId,
    fun h => processQueue_frame dm now (queue.take cancelledBefore) invoiceId h⟩

/-- C6: the date-range conditions of `applyFilters` never exclude a record
with an empty `startDate` or `endDate`: the `dateFrom` guard fires exactly
for a set bound and a nonempty `endDate` strictly below it, the `dateTo`
guard exactly for a set bound and a nonempty `startDate` strictly above
it, and a record with both dates empty passes `rowPasses` exactly as it
would with no date bounds set at all. -/
theorem date_filter_leniency (dm : InvoiceDataManager) (filters : FilterSpec)
    (data : RowData) :
    (data.endDate = "" → dateFromExcludes filters data = false) ∧
    (data.startDate = "" → dateToExcludes filters data = false) ∧
    (dateFromExcludes filters data = true ↔
      filters.dateFrom ≠ "" ∧ data.endDate ≠ "" ∧
        data.endDate < filters.dateFrom) ∧
    (dateToExcludes filters data = true ↔
      filters.dateTo ≠ "" ∧ data.startDate ≠ "" ∧
        filters.dateTo < data.startDate) ∧
    (data.startDate = "" → data.endDate = "" →
      rowPasses dm filters data =
        rowPasses dm { filters with dateFrom := "", dateTo := "" } data) := by
  refine ⟨?_, ?_, ?_, ?_, ?_⟩
  · intro h
    simp [dateFromExcludes, truthy, h]
  · intro h
    simp [dateToExcludes, truthy, h]
  · simp [dateFromExcludes, truthy, and_assoc]
  · simp [dateToExcludes, truthy, and_assoc]
  · intro h1 h2
    simp [rowPasses, dateFromExcludes, dateToExcludes, truthy, h1, h2]

/-- C7: re-applying the same spec right after an `applyFilters` call is a
cache hit: the spec's key is present in the cache holding the first
result, the second call returns that very sequence, and it leaves the
cache untouched (no recomputation, no insertion). -/
theorem apply_filters_idempotent (dm : InvoiceDataManager)
    (filters : FilterSpec) :
    lookupFirst (applyFilters dm filters).1.filterCache filters =
      some (applyFilters dm filters).2 ∧
    (applyFilters (applyFilters dm filters).1 filters).2 =
      (applyFilters dm filters).2 ∧
    (applyFilters (applyFilters dm filters).1 filters).1.filterCache =
      (applyFilters dm filters).1.filterCache := by
  have key : lookupFirst (applyFilters dm filters).1.filterCache filters =
      some (applyFilters dm filters).2 := by
    cases hl : lookupFirst dm.filterCache filters with
    | some rows =>
      unfold applyFilters
      rw [hl]
      exact hl
    | none =>
      unfold applyFilters
      rw [hl]
      apply lookupFirst_append_right
      by_cases hb : 50 < dm.filterCache.length
      · simp only [if_pos hb]
        exact lookupFirst_tail_none _ _ hl
      · simp only [if_neg hb]
        exact hl
  have second : applyFilters (applyFilters dm filters).1 filters =
      ({ (applyFilters dm filters).1 with
          filteredRows := (applyFilters dm filters).2 },
        (applyFilters dm filters).2) := by
    conv_lhs => rw [applyFilters.eq_def]
    rw [key]
  exact ⟨key, by rw [second], by rw [second]⟩

theorem lookupFirst_none_of_all_ne {β : Type} (l : List (String × β))
    (name : String) (h : (l.all fun p => !(p.1 == name)) = true) :
    lookupFirst l name = none := by
  induction l with
  | nil => rfl
  | cons p rest ih =>
    obtain ⟨a, v⟩ := p
    simp only [List.all_cons, Bool.and_eq_true] at h
    rw [lookupFirst, if_neg]
    · exact ih h.2
    · simpa using h.1

/-- C8 counterexample: for a present control element that does not carry
the `data-enddate` attribute, `extractButtonData` stores `getAttribute`'s
`null` (here `none`) in the map, not the empty string. -/
theorem absent_attribute_is_null :
    (extractButtonData (some { attrs := [("data-filetype", "pdf")] })).endDate =
      none ∧
    (extractButtonData (some { attrs := [("data-filetype", "pdf")] })).endDate ≠
      some "" := by
  exact ⟨rfl, by decide⟩

/-- C8 (amended): metadata extraction never crashes — a missing control
element yields the empty object `{}` whose named fields all read back
absent — and for a present element each of the seven named attributes is
read with `getAttribute`, which yields `null` (`none`), not the empty
string, for every attribute the element does not carry. -/
theorem button_data_reads_attributes (b : DomButton) (name : String) :
    extractButtonData none = emptyButtonData ∧
    (extractButtonData (some b)).endDate = getAttribute b "data-enddate" ∧
    (extractButtonData (some b)).fileType = getAttribute b "data-filetype" ∧
    (extractButtonData (some b)).filterName = getAttribute b "data-filtername" ∧
    (extractButtonData (some b)).invoice = getAttribute b "data-invoice" ∧
    (extractButtonData (some b)).payeeRegistrationNumber =
      getAttribute b "data-payeeregistrationnumber" ∧
    (extractButtonData (some b)).rarId = getAttribute b "data-rarid" ∧
    (extractButtonData (some b)).shedDocumentName =
      getAttribute b "data-sheddocumentname" ∧
    ((b.attrs.all fun p => !(p.1 == name)) = true →
      getAttribute b name = none) := by
  refine ⟨rfl, rfl, rfl, rfl, rfl, rfl, rfl, rfl, ?_⟩
  intro hall
  unfold getAttribute
  exact lookupFirst_none_of_all_ne b.attrs name hall

/-- C9 counterexample: a record with the empty invoice id is not treated
as permanently pending — after the one-operation sequence
`recordSuccess("")`, `getDownloadStatus` derives `"downloaded"` for the
empty id, not `"pending"`. -/
theorem empty_id_downloaded :
    getDownloadStatus (applyStoreOps newManager [StoreOp.success "" 0]) "" =
      "downloaded" ∧
    getDownloadStatus (applyStoreOps newManager [StoreOp.success "" 0]) "" ≠
      "pending" := by decide

/-- C9 (amended): the empty invoice id is an ordinary status key, so every
record whose `invoiceId` is empty shares the single entry under `""`: once
any of them records a success, `getDownloadStatus` reports `"downloaded"`
for all of them, through every later success/failure sequence. -/
theorem empty_id_shares_status (dm : InvoiceDataManager) (now : Nat)
    (ops : List StoreOp) :
    getDownloadStatus (applyStoreOps (markAsDownloaded dm "" now) ops) "" =
      "downloaded" := by
  apply getDownloadStatus_of_mem
  apply mem_downloaded_applyStoreOps
  exact mem_setAdd_self _ _

/-- C10: `markAsDownloaded`, `markAsFailed` and `clearDownloadHistory`
leave the filter memoization cache untouched, so a spec whose result is
cached before any sequence of such mutations still hits the cache
afterwards and returns the previously stored sequence, not one recomputed
from the updated statuses. -/
theorem status_mutations_preserve_filter_cache (dm : InvoiceDataManager)
    (filters : FilterSpec) (rows : List RowData)
    (muts : List StatusMutation)
    (h : lookupFirst dm.filterCache filters = some rows) :
    (muts.foldl applyStatusMutation dm).filterCache = dm.filterCache ∧
    (applyFilters (muts.foldl applyStatusMutation dm) filters).2 = rows := by
  have hc : ∀ s : InvoiceDataManager,
      (muts.foldl applyStatusMutation s).filterCache = s.filterCache := by
    induction muts with
    | nil => intro s; rfl
    | cons m rest ih =>
      intro s
      rw [List.foldl_cons, ih]
      cases m <;> rfl
  refine ⟨hc dm, ?_⟩
  rw [applyFilters.eq_def, hc dm, h]

/-- Witness for `status_mutations_preserve_filter_cache`: a concrete
cached spec survives a success recording followed by a history reset. -/
theorem status_mutations_preserve_filter_cache_witness :
    lookupFirst cachedManager.filterCache (specNum 0) =
      some ([] : List RowData) ∧
    ((([StatusMutation.success "GB-AEU-2025-0002" 9,
        StatusMutation.clearHistory]).foldl applyStatusMutation
          cachedManager).filterCache = cachedManager.filterCache ∧
     (applyFilters
        (([StatusMutation.success "GB-AEU-2025-0002" 9,
           StatusMutation.clearHistory]).foldl applyStatusMutation
             cachedManager) (specNum 0)).2 = []) :=
  ⟨by decide,
   status_mutations_preserve_filter_cache cachedManager (specNum 0) []
     [StatusMutation.success "GB-AEU-2025-0002" 9,
      StatusMutation.clearHistory] (by decide)⟩
